import Mathlib

/-!
# Verification of the TrendWatching retrieval-to-report pipeline

Shallow embedding of `src/future2/test_analysis5.py` (the revision the spec
follows: model-aware tokenization, JSON-structured filtering), together with
theorems settling the frozen claims about it.

Modelling conventions:

* Python numbers: `count_tokens` returns an integer on its primary (tiktoken)
  path and the spec's §4.1 contract is `estimate(text) -> integer cost`, so the
  token estimator is modelled as an arbitrary function `tok : String → Nat`
  and all planner theorems are proved for every such estimator.
* Python float arithmetic on `max_context_size * 0.8` is modelled by exact
  rational arithmetic: for integers `s`, the source test
  `s > max_context_size * 0.8` is rendered `5 * s > 4 * maxContextSize`,
  and `int(max_context_size * 0.8)` (truncation of a nonnegative value)
  is rendered `(4 * maxContextSize) / 5` with `Nat` floor division.
* Python exceptions are modelled with `Except String`, the carried string
  being Python's `str(e)` (e.g. `"division by zero"` for an integer
  `ZeroDivisionError`, `"float division by zero"` for a float one).
* External collaborators (`llm_client.analyze_text`, embeddings, vector
  search, `json.loads`) are fields of an `Env` record, so every pipeline
  theorem is proved for all collaborator behaviours.
-/

/-- A retrieved material, as the dictionaries returned by
`vector_store.search_vectors` and consumed by the pipeline; the pipeline
reads `material['text']` (token counting) and the filter stage works on
`{text, url}` pairs. -/
structure Material where
  text : String
  url : String
deriving DecidableEq

/-- `sum(count_tokens(material['text']) for material in materials)` for an
estimator `tok` standing for `count_tokens`. -/
def totalTokens (tok : String → Nat) (materials : List Material) : Nat :=
  (materials.map (fun m => tok m.text)).sum

/-- Embedding of `calculate_chunk_size` (test_analysis5.py lines 22-26):

    available_tokens = int(max_context_size * 0.8)
    total_tokens = sum(count_tokens(material['text']) for material in materials)
    avg_tokens = total_tokens / len(materials)
    return max(1, int(available_tokens / avg_tokens))

`total_tokens / len(materials)` raises `ZeroDivisionError('division by zero')`
on an empty list; `available_tokens / avg_tokens` raises
`ZeroDivisionError('float division by zero')` when `avg_tokens == 0.0`.
Otherwise `int(available_tokens / (total/len))` is the floor
`(available_tokens * len) / total`, rendered with `Nat` division. -/
def calculate_chunk_size (tok : String → Nat) (materials : List Material)
    (max_context_size : Nat) : Except String Nat :=
  let available_tokens := (4 * max_context_size) / 5
  if materials.length = 0 then
    Except.error "division by zero"
  else if totalTokens tok materials = 0 then
    Except.error "float division by zero"
  else
    Except.ok (max 1 ((available_tokens * materials.length) / totalTokens tok materials))

/-- The `for material in materials:` loop of `_create_context_aware_chunks`
(test_analysis5.py lines 32-48), with the Python accumulators `chunks`,
`current_chunk`, `current_size` threaded explicitly.  Loop body:

    tokens = count_tokens(material['text'])
    if current_size + tokens > max_context_size * 0.8:
        if current_chunk: chunks.append(current_chunk)
        current_chunk = [material]; current_size = tokens
    else:
        current_chunk.append(material); current_size += tokens
    if len(current_chunk) >= chunk_size:
        chunks.append(current_chunk); current_chunk, current_size = [], 0

followed by the trailing `if current_chunk: chunks.append(current_chunk)`. -/
def chunkLoop (tok : String → Nat) (max_context_size chunk_size : Nat) :
    List Material → List (List Material) → List Material → Nat → List (List Material)
  | [], chunks, current_chunk, _ =>
      if current_chunk.isEmpty then chunks else chunks ++ [current_chunk]
  | material :: rest, chunks, current_chunk, current_size =>
      let tokens := tok material.text
      if 5 * (current_size + tokens) > 4 * max_context_size then
        if chunk_size ≤ ([material] : List Material).length then
          chunkLoop tok max_context_size chunk_size rest
            ((if current_chunk.isEmpty then chunks else chunks ++ [current_chunk]) ++ [[material]]) [] 0
        else
          chunkLoop tok max_context_size chunk_size rest
            (if current_chunk.isEmpty then chunks else chunks ++ [current_chunk]) [material] tokens
      else
        if chunk_size ≤ (current_chunk ++ [material]).length then
          chunkLoop tok max_context_size chunk_size rest
            (chunks ++ [current_chunk ++ [material]]) [] 0
        else
          chunkLoop tok max_context_size chunk_size rest
            chunks (current_chunk ++ [material]) (current_size + tokens)

/-- Embedding of `_create_context_aware_chunks` (test_analysis5.py lines
28-50): computes `chunk_size = calculate_chunk_size(...)` (whose
`ZeroDivisionError` propagates to the caller), then runs the greedy loop
starting from empty accumulators. -/
def _create_context_aware_chunks (tok : String → Nat) (materials : List Material)
    (max_context_size : Nat) : Except String (List (List Material)) :=
  (calculate_chunk_size tok materials max_context_size).map fun chunk_size =>
    chunkLoop tok max_context_size chunk_size materials [] [] 0

/-- The Chunk Planner exactly as the spec's §4.3 step 4 words it (the
refinement target for claim C2): scan documents in retrieval order,
accumulating into the current chunk; when adding the next document would
exceed `availableBudget = maxContextSize × 0.8`, close the current chunk and
start a new one with that document; a document whose own cost exceeds the
budget forms a singleton chunk.  No document-count cap appears here. -/
def budgetGreedy (tok : String → Nat) (max_context_size : Nat) :
    List Material → List Material → Nat → List (List Material)
  | [], current, _ => if current.isEmpty then [] else [current]
  | m :: rest, current, size =>
      let t := tok m.text
      if 5 * (size + t) > 4 * max_context_size then
        (if current.isEmpty then [] else [current]) ++ budgetGreedy tok max_context_size rest [m] t
      else
        budgetGreedy tok max_context_size rest (current ++ [m]) (size + t)

/-- Spec-style greedy partition, entry point. -/
def budgetGreedyChunks (tok : String → Nat) (max_context_size : Nat)
    (materials : List Material) : List (List Material) :=
  budgetGreedy tok max_context_size materials [] 0

/-- The amended planner description for claim C2: the spec's greedy-by-budget
scan, except that after a document is placed the current chunk is additionally
closed as soon as it holds `chunk_size` documents (the count cap computed by
`calculate_chunk_size`).  Written without the `chunks` accumulator so that it
can be compared against the accumulator-style source loop. -/
def greedyCapped (tok : String → Nat) (max_context_size chunk_size : Nat) :
    List Material → List Material → Nat → List (List Material)
  | [], current, _ => if current.isEmpty then [] else [current]
  | m :: rest, current, size =>
      let t := tok m.text
      if 5 * (size + t) > 4 * max_context_size then
        if chunk_size ≤ ([m] : List Material).length then
          (if current.isEmpty then [] else [current]) ++ [[m]] ++
            greedyCapped tok max_context_size chunk_size rest [] 0
        else
          (if current.isEmpty then [] else [current]) ++
            greedyCapped tok max_context_size chunk_size rest [m] t
      else
        if chunk_size ≤ (current ++ [m]).length then
          [current ++ [m]] ++ greedyCapped tok max_context_size chunk_size rest [] 0
        else
          greedyCapped tok max_context_size chunk_size rest (current ++ [m]) (size + t)

/-- The value `json.loads` produces for the filter response, abstracted to
the one distinction the code makes (`isinstance(filtered_materials, list)`):
either a JSON array with its elements, or some non-list JSON value. -/
inductive JValue where
  | list (items : List JValue)
  | nonlist

/-- One `llm_client.analyze_text(prompt, user_query)` call site of
`analyze_trend`, identified by its prompt template together with exactly the
values the template interpolates (spec §1 treats prompt wording as
configuration, so the rendered text is abstracted to the template applied to
its arguments; `user_query` is always also passed as the second argument of
`analyze_text`):

* `themeExtract`: `theme_prompt` (lines 82-90), interpolates `category`,
  `user_query`;
* `filterAll`: the fast-path `filter_prompt` (lines 109-117), interpolates
  `category`, `theme`, `user_query`;
* `analyzeAll`: the fast-path `analysis_prompt` (lines 132-156), interpolates
  `theme`, `category`, `user_query`, `filtered_materials`;
* `chunkFilter`: `chunk_filter_prompt` (lines 165-173), interpolates
  `category`, `i+1`, `len(chunks)`, `theme`, `user_query`;
* `chunkAnalyze`: `chunk_analysis_prompt` (lines 187-208), interpolates
  `i+1`, `len(chunks)`, `theme`, `category`, `filtered_chunk_materials`;
* `synthesizeAll`: `final_prompt` (lines 217-240), interpolates `category`,
  `theme`, `user_query` and the intermediate analyses joined with the
  separator `"\n\n---\n\n"`. -/
inductive Call where
  | themeExtract (category userQuery : String)
  | filterAll (category theme userQuery : String)
  | analyzeAll (category theme userQuery : String) (filtered : List JValue)
  | chunkFilter (category theme userQuery : String) (part nparts : Nat)
  | chunkAnalyze (category theme userQuery : String) (part nparts : Nat) (filtered : List JValue)
  | synthesizeAll (category theme userQuery : String) (joined : String)

/-- Whether a call is the final synthesis (`final_prompt`) completion call. -/
def Call.isSynthesis : Call → Bool
  | .synthesizeAll _ _ _ _ => true
  | _ => false

/-- The external collaborators of `analyze_trend`, per spec §6, plus the two
deterministic library functions the pipeline applies per-document /
per-response.  `Emb` is the (opaque) embedding-vector type.

* `analyzeText c` models `llm_client.analyze_text(prompt, user_query)
  .get('analysis', '')` at call site `c` — the analysis string on success,
  or the raised exception's `str(e)`;
* `createEmbedding` models `text_processor.create_embeddings([theme])[0]`;
* `searchVectors` models `vector_store.search_vectors(query_vector=...,
  category=..., score_threshold=0.30)` (the threshold is the fixed literal);
* `getMaxContextSize` models `llm_client.get_max_context_size()`;
* `tok` models `count_tokens` (spec §4.1: integer cost);
* `jsonLoads` models `json.loads` on a filter response: `none` when it
  raises `JSONDecodeError`, otherwise the parsed value. -/
structure Env (Emb : Type) where
  analyzeText : Call → Except String String
  createEmbedding : String → Except String Emb
  searchVectors : Emb → String → Except String (List Material)
  getMaxContextSize : Except String Nat
  tok : String → Nat
  jsonLoads : String → Option JValue

/-- `filtered_materials = json.loads(s)` guarded by
`except json.JSONDecodeError: filtered_materials = []` and
`if not isinstance(filtered_materials, list): filtered_materials = []`
(test_analysis5.py lines 120-126 and 175-181). -/
def parseFilteredList (jsonLoads : String → Option JValue) (s : String) : List JValue :=
  match jsonLoads s with
  | some (JValue.list items) => items
  | _ => []

/-- `'Нет релевантных материалов'` (line 103, retrieval returned nothing). -/
def noMaterialsMsg : String := "Нет релевантных материалов"

/-- `'Нет релевантных материалов после фильтрации'` (line 130, fast path,
filter left nothing). -/
def noAfterFilterMsg : String := "Нет релевантных материалов после фильтрации"

/-- `'Не удалось получить анализ из материалов'` (line 214, chunked path,
no chunk produced an intermediate analysis). -/
def noChunkAnalysesMsg : String := "Не удалось получить анализ из материалов"

/-- The result `analyze_trend` encodes into its returned dict: either the
success dict `{'status': 'ok', 'report': ...}` or the error dict
`{'status': 'error', 'message': ...}`. -/
inductive TrendResult where
  | ok (report : String)
  | err (message : String)

/-- The `for i, chunk in enumerate(chunks):` loop (test_analysis5.py lines
164-210): per chunk, one filter completion call, parse-or-empty, `continue`
on an empty filtered list, otherwise one analysis completion call appended to
`chunk_analyses_texts`.  Returns the accumulated texts (or the first raised
exception) together with the completion-call trace; `i` is the 0-based index
and `nparts` is `len(chunks)`. -/
def processChunks {Emb : Type} (env : Env Emb) (category theme userQuery : String)
    (nparts : Nat) :
    List (List Material) → Nat → List String → List Call →
      Except String (List String) × List Call
  | [], _, acc, trace => (Except.ok acc, trace)
  | _chunk :: rest, i, acc, trace =>
      let fcall := Call.chunkFilter category theme userQuery (i + 1) nparts
      match env.analyzeText fcall with
      | Except.error e => (Except.error e, trace ++ [fcall])
      | Except.ok s =>
          let filtered := parseFilteredList env.jsonLoads s
          if filtered.isEmpty then
            processChunks env category theme userQuery nparts rest (i + 1) acc (trace ++ [fcall])
          else
            let acall := Call.chunkAnalyze category theme userQuery (i + 1) nparts filtered
            match env.analyzeText acall with
            | Except.error e => (Except.error e, trace ++ [fcall, acall])
            | Except.ok a =>
                processChunks env category theme userQuery nparts rest (i + 1)
                  (acc ++ [a]) (trace ++ [fcall, acall])

/-- Embedding of `analyze_trend` (test_analysis5.py lines 65-246) before the
final dict encoding, paired with the trace of `analyze_text` completion
calls.  Control flow, in source order: theme extraction (`.strip()` is
`String.trim`), embedding of the theme, thresholded search, the
no-materials short-circuit, `max_context_size` lookup, the
`total_tokens <= max_context_size * 0.8` fast path (filter → parse-or-empty
→ after-filter short-circuit → single analysis call), else the chunked path
(planner → per-chunk loop → no-analyses short-circuit → synthesis of the
joined intermediate analyses).  Any collaborator exception maps to the
function's `except Exception as e` handler, i.e. `TrendResult.err (str e)`. -/
def analyzeTrendR {Emb : Type} (env : Env Emb) (category userQuery : String) :
    TrendResult × List Call :=
  let tcall := Call.themeExtract category userQuery
  match env.analyzeText tcall with
  | Except.error e => (TrendResult.err e, [tcall])
  | Except.ok raw =>
      let theme := raw.trim
      match env.createEmbedding theme with
      | Except.error e => (TrendResult.err e, [tcall])
      | Except.ok emb =>
          match env.searchVectors emb category with
          | Except.error e => (TrendResult.err e, [tcall])
          | Except.ok relevant_materials =>
              if relevant_materials.isEmpty then
                (TrendResult.err noMaterialsMsg, [tcall])
              else
                match env.getMaxContextSize with
                | Except.error e => (TrendResult.err e, [tcall])
                | Except.ok max_context_size =>
                    let total_tokens := totalTokens env.tok relevant_materials
                    if 5 * total_tokens ≤ 4 * max_context_size then
                      let fcall := Call.filterAll category theme userQuery
                      match env.analyzeText fcall with
                      | Except.error e => (TrendResult.err e, [tcall, fcall])
                      | Except.ok s =>
                          let filtered := parseFilteredList env.jsonLoads s
                          if filtered.isEmpty then
                            (TrendResult.err noAfterFilterMsg, [tcall, fcall])
                          else
                            let acall := Call.analyzeAll category theme userQuery filtered
                            match env.analyzeText acall with
                            | Except.error e => (TrendResult.err e, [tcall, fcall, acall])
                            | Except.ok rep => (TrendResult.ok rep, [tcall, fcall, acall])
                    else
                      match _create_context_aware_chunks env.tok relevant_materials max_context_size with
                      | Except.error e => (TrendResult.err e, [tcall])
                      | Except.ok chunks =>
                          match processChunks env category theme userQuery chunks.length
                              chunks 0 [] [tcall] with
                          | (Except.error e, trace) => (TrendResult.err e, trace)
                          | (Except.ok chunk_analyses_texts, trace) =>
                              if chunk_analyses_texts.isEmpty then
                                (TrendResult.err noChunkAnalysesMsg, trace)
                              else
                                let joined := String.intercalate "\n\n---\n\n" chunk_analyses_texts
                                let scall := Call.synthesizeAll category theme userQuery joined
                                match env.analyzeText scall with
                                | Except.error e => (TrendResult.err e, trace ++ [scall])
                                | Except.ok rep => (TrendResult.ok rep, trace ++ [scall])

/-- The dicts `analyze_trend` literally returns:
`{'status': 'ok', 'report': r}` / `{'status': 'error', 'message': m}`,
as association lists. -/
def resultToDict : TrendResult → List (String × String)
  | TrendResult.ok r => [("status", "ok"), ("report", r)]
  | TrendResult.err m => [("status", "error"), ("message", m)]

/-- `analyze_trend` as the caller sees it (the returned dict), paired with
the completion-call trace. -/
def analyze_trend {Emb : Type} (env : Env Emb) (category userQuery : String) :
    List (String × String) × List Call :=
  let (r, trace) := analyzeTrendR env category userQuery
  (resultToDict r, trace)

/-- A chunk satisfying the spec's Budget-respect property (C3): its summed
estimated cost fits the budget `maxContextSize × 0.8`, or it is a singleton
whose lone document alone exceeds that budget. -/
def goodChunk (tok : String → Nat) (mcs : Nat) (c : List Material) : Prop :=
  5 * totalTokens tok c ≤ 4 * mcs ∨ ∃ m, c = [m] ∧ 4 * mcs < 5 * tok m.text


/-- A collaborator environment on which every call succeeds: constant model
response `"R"`, one retrieved document, context size 100, unit token costs,
and a JSON parse yielding a one-element list.  Drives the fast path to a
successful report. -/
def envOk : Env Nat where
  analyzeText := fun _ => Except.ok "R"
  createEmbedding := fun _ => Except.ok 0
  searchVectors := fun _ _ => Except.ok [⟨"t", "u"⟩]
  getMaxContextSize := Except.ok 100
  tok := fun _ => 1
  jsonLoads := fun _ => some (JValue.list [JValue.nonlist])

/-- An environment whose very first completion call (theme extraction)
raises `"boom"`. -/
def envErrTheme : Env Nat where
  analyzeText := fun _ => Except.error "boom"
  createEmbedding := fun _ => Except.ok 0
  searchVectors := fun _ _ => Except.ok [⟨"t", "u"⟩]
  getMaxContextSize := Except.ok 100
  tok := fun _ => 1
  jsonLoads := fun _ => some (JValue.list [JValue.nonlist])

/-- An environment whose retrieval returns zero documents. -/
def envEmptySearch : Env Nat where
  analyzeText := fun _ => Except.ok "R"
  createEmbedding := fun _ => Except.ok 0
  searchVectors := fun _ _ => Except.ok []
  getMaxContextSize := Except.ok 100
  tok := fun _ => 1
  jsonLoads := fun _ => some (JValue.list [JValue.nonlist])

/-- An environment that retrieves two unit-cost documents against context
size 1 (budget 0, forcing the chunked path) and whose every filter response
fails JSON parsing, so each chunk's FilteredChunk is empty. -/
def envAllEmpty : Env Nat where
  analyzeText := fun _ => Except.ok "x"
  createEmbedding := fun _ => Except.ok 0
  searchVectors := fun _ _ => Except.ok [⟨"a", "u1"⟩, ⟨"b", "u2"⟩]
  getMaxContextSize := Except.ok 1
  tok := fun _ => 1
  jsonLoads := fun _ => none

/-! ## Planner lemmas -/

/-- Every material the loop consumes lands in exactly one chunk, in order:
the concatenation of the produced chunks is the pending `chunks`/`current`
state followed by the remaining input. -/
theorem chunkLoop_flatten (tok : String → Nat) (mcs cap : Nat) :
    ∀ (ms : List Material) (chunks : List (List Material)) (cur : List Material) (size : Nat),
      (chunkLoop tok mcs cap ms chunks cur size).flatten = chunks.flatten ++ (cur ++ ms)
  | [], chunks, cur, _ => by
      by_cases h : cur.isEmpty
      · simp [chunkLoop, h, List.isEmpty_iff.mp h]
      · simp [chunkLoop, h]
  | m :: rest, chunks, cur, size => by
      simp only [chunkLoop]
      split
      · split
        · rw [chunkLoop_flatten tok mcs cap rest]
          by_cases h : cur.isEmpty
          · simp [h, List.isEmpty_iff.mp h]
          · simp [h]
        · rw [chunkLoop_flatten tok mcs cap rest]
          by_cases h : cur.isEmpty
          · simp [h, List.isEmpty_iff.mp h]
          · simp [h]
      · split
        · rw [chunkLoop_flatten tok mcs cap rest]
          simp
        · rw [chunkLoop_flatten tok mcs cap rest]
          simp

/-- The accumulator-style source loop emits exactly the chunks of the
accumulator-free greedy-with-count-cap scan. -/
theorem chunkLoop_eq_greedyCapped (tok : String → Nat) (mcs cap : Nat) :
    ∀ (ms : List Material) (chunks : List (List Material)) (cur : List Material) (size : Nat),
      chunkLoop tok mcs cap ms chunks cur size = chunks ++ greedyCapped tok mcs cap ms cur size
  | [], chunks, cur, _ => by
      by_cases h : cur.isEmpty
      · simp [chunkLoop, greedyCapped, h]
      · simp [chunkLoop, greedyCapped, h]
  | m :: rest, chunks, cur, size => by
      simp only [chunkLoop, greedyCapped]
      split
      · split
        · rw [chunkLoop_eq_greedyCapped tok mcs cap rest]
          by_cases h : cur.isEmpty
          · simp [h]
          · simp [h]
        · rw [chunkLoop_eq_greedyCapped tok mcs cap rest]
          by_cases h : cur.isEmpty
          · simp [h]
          · simp [h]
      · split
        · rw [chunkLoop_eq_greedyCapped tok mcs cap rest]
          simp
        · rw [chunkLoop_eq_greedyCapped tok mcs cap rest]

/-- `totalTokens` over an appended singleton. -/
theorem totalTokens_append (tok : String → Nat) (l : List Material) (m : Material) :
    totalTokens tok (l ++ [m]) = totalTokens tok l + tok m.text := by
  simp [totalTokens]

/-- Budget invariant of the source loop: provided the running size is the
cost of the current chunk, every previously emitted chunk is good and the
current chunk is empty or good, every chunk the loop returns is good. -/
theorem chunkLoop_good (tok : String → Nat) (mcs cap : Nat) :
    ∀ (ms : List Material) (chunks : List (List Material)) (cur : List Material) (size : Nat),
      size = totalTokens tok cur →
      (∀ c ∈ chunks, goodChunk tok mcs c) →
      (cur = [] ∨ goodChunk tok mcs cur) →
      ∀ c ∈ chunkLoop tok mcs cap ms chunks cur size, goodChunk tok mcs c
  | [], chunks, cur, size => by
      intro _ hchunks hcur c hc
      by_cases h : cur.isEmpty
      · simp only [chunkLoop, h, if_true] at hc
        exact hchunks c hc
      · simp only [chunkLoop, h, if_false] at hc
        rcases List.mem_append.mp hc with h1 | h1
        · exact hchunks c h1
        · rcases hcur with rfl | hgood
          · simp at h
          · rw [List.mem_singleton.mp h1]; exact hgood
  | m :: rest, chunks, cur, size => by
      intro hsize hchunks hcur c hc
      have hone : goodChunk tok mcs ([m] : List Material) := by
        by_cases hb : 5 * tok m.text ≤ 4 * mcs
        · left; simpa [totalTokens] using hb
        · right; exact ⟨m, rfl, by omega⟩
      have hcurgood : cur.isEmpty = false → goodChunk tok mcs cur := by
        intro hne
        rcases hcur with rfl | hgood
        · simp at hne
        · exact hgood
      simp only [chunkLoop] at hc
      rcases Nat.lt_or_ge (4 * mcs) (5 * (size + tok m.text)) with hgt | hle
      · rw [if_pos (by omega)] at hc
        have hemit : ∀ c ∈ (if cur.isEmpty then chunks else chunks ++ [cur]),
            goodChunk tok mcs c := by
          by_cases h : cur.isEmpty
          · simpa [h] using hchunks
          · intro c hc
            rw [if_neg h] at hc
            rcases List.mem_append.mp hc with h1 | h1
            · exact hchunks c h1
            · rw [List.mem_singleton.mp h1]
              exact hcurgood (by simpa using h)
        split at hc
        · refine chunkLoop_good tok mcs cap rest _ _ _ rfl ?_ (Or.inl rfl) c hc
          intro c hc
          rcases List.mem_append.mp hc with h1 | h1
          · exact hemit c h1
          · rw [List.mem_singleton.mp h1]; exact hone
        · refine chunkLoop_good tok mcs cap rest _ _ _ (by simp [totalTokens]) hemit
            (Or.inr hone) c hc
      · rw [if_neg (by omega)] at hc
        have hgrow : goodChunk tok mcs (cur ++ [m]) := by
          left
          rw [totalTokens_append, ← hsize]
          omega
        split at hc
        · refine chunkLoop_good tok mcs cap rest _ _ _ rfl ?_ (Or.inl rfl) c hc
          intro c hc
          rcases List.mem_append.mp hc with h1 | h1
          · exact hchunks c h1
          · rw [List.mem_singleton.mp h1]; exact hgrow
        · refine chunkLoop_good tok mcs cap rest _ _ _ ?_ hchunks (Or.inr hgrow) c hc
          rw [totalTokens_append, ← hsize]

/-- Count-cap invariant of the source loop: with a positive cap, a current
chunk strictly below the cap and all emitted chunks at most the cap, every
chunk the loop returns holds at most `cap` documents. -/
theorem chunkLoop_length (tok : String → Nat) (mcs cap : Nat) (hcap : 1 ≤ cap) :
    ∀ (ms : List Material) (chunks : List (List Material)) (cur : List Material) (size : Nat),
      cur.length < cap →
      (∀ c ∈ chunks, c.length ≤ cap) →
      ∀ c ∈ chunkLoop tok mcs cap ms chunks cur size, c.length ≤ cap
  | [], chunks, cur, size => by
      intro hcur hchunks c hc
      by_cases h : cur.isEmpty
      · simp only [chunkLoop, h, if_true] at hc
        exact hchunks c hc
      · simp only [chunkLoop, h, if_false] at hc
        rcases List.mem_append.mp hc with h1 | h1
        · exact hchunks c h1
        · rw [List.mem_singleton.mp h1]; omega
  | m :: rest, chunks, cur, size => by
      intro hcur hchunks c hc
      have hemit : ∀ c ∈ (if cur.isEmpty then chunks else chunks ++ [cur]),
          c.length ≤ cap := by
        by_cases h : cur.isEmpty
        · simpa [h] using hchunks
        · intro c hc
          rw [if_neg h] at hc
          rcases List.mem_append.mp hc with h1 | h1
          · exact hchunks c h1
          · rw [List.mem_singleton.mp h1]; omega
      simp only [chunkLoop] at hc
      split at hc
      · split at hc
        · refine chunkLoop_length tok mcs cap hcap rest _ _ _
            (by simp only [List.length_nil]; omega) ?_ c hc
          intro c hc
          rcases List.mem_append.mp hc with h1 | h1
          · exact hemit c h1
          · rw [List.mem_singleton.mp h1]
            simp only [List.length_singleton]
            exact hcap
        · rename_i hnocap
          refine chunkLoop_length tok mcs cap hcap rest _ _ _ ?_ hemit c hc
          simp only [List.length_singleton] at hnocap ⊢
          omega
      · split at hc
        · refine chunkLoop_length tok mcs cap hcap rest _ _ _
            (by simp only [List.length_nil]; omega) ?_ c hc
          intro c hc
          rcases List.mem_append.mp hc with h1 | h1
          · exact hchunks c h1
          · rw [List.mem_singleton.mp h1]
            rename_i hle
            simp only [List.length_append, List.length_singleton] at hle ⊢
            omega
        · rename_i hnocap
          refine chunkLoop_length tok mcs cap hcap rest _ _ _ ?_ hchunks c hc
          simp only [List.length_append, List.length_singleton] at hnocap ⊢
          omega

/-- Inversion of a successful planner run: the input was non-empty with
positive total cost, and the chunks come from the loop at the computed cap. -/
theorem create_chunks_ok_inv (tok : String → Nat) (materials : List Material)
    (mcs : Nat) (chunks : List (List Material))
    (h : _create_context_aware_chunks tok materials mcs = Except.ok chunks) :
    materials.length ≠ 0 ∧ totalTokens tok materials ≠ 0 ∧
      chunks = chunkLoop tok mcs
        (max 1 ((4 * mcs) / 5 * materials.length / totalTokens tok materials))
        materials [] [] 0 := by
  unfold _create_context_aware_chunks calculate_chunk_size at h
  split at h
  · exact absurd h (by simp [Except.map])
  · split at h
    · exact absurd h (by simp [Except.map])
    · refine ⟨by assumption, by assumption, ?_⟩
      simpa [Except.map] using h.symm

/-- A non-empty input with positive total cost makes the planner succeed,
with the chunks concatenating back to the input. -/
theorem chunks_total_of_pos (tok : String → Nat) (materials : List Material) (mcs : Nat)
    (hne : materials ≠ []) (hpos : 0 < totalTokens tok materials) :
    ∃ chunks, _create_context_aware_chunks tok materials mcs = Except.ok chunks ∧
      chunks.flatten = materials := by
  have hlen : materials.length ≠ 0 :=
    Nat.pos_iff_ne_zero.mp (List.length_pos.mpr hne)
  refine ⟨chunkLoop tok mcs
      (max 1 ((4 * mcs) / 5 * materials.length / totalTokens tok materials))
      materials [] [] 0, ?_, ?_⟩
  · simp [_create_context_aware_chunks, calculate_chunk_size, hlen, Nat.pos_iff_ne_zero.mp hpos,
      Except.map]
  · simpa using chunkLoop_flatten tok mcs _ materials [] [] 0

/-! ## Claims about the Chunk Planner -/

/-- C1 (counterexample): the claim quantifies over every non-empty document
list, but on a non-empty list whose texts all tokenize to zero (e.g. one
document with empty text — `count_tokens("")` is `0`), `calculate_chunk_size`
divides by a zero average, so `_create_context_aware_chunks` raises
`ZeroDivisionError('float division by zero')` and produces no chunks at all,
so no chunk list concatenates back to the input. -/
theorem claim1_cex :
    _create_context_aware_chunks (fun _ => 0) [⟨"", "u"⟩] 10
      = Except.error "float division by zero" ∧
    ¬ ∃ chunks, _create_context_aware_chunks (fun _ => 0) [⟨"", "u"⟩] 10
        = Except.ok chunks ∧ chunks.flatten = [(⟨"", "u"⟩ : Material)] := by
  have h0 : _create_context_aware_chunks (fun _ => 0) [⟨"", "u"⟩] 10
      = Except.error "float division by zero" := rfl
  refine ⟨h0, ?_⟩
  rintro ⟨chunks, hchunks, -⟩
  rw [h0] at hchunks
  exact Except.noConfusion hchunks

/-- C1 (amended): for every token estimator and every non-empty list of
retrieved documents whose total estimated cost is positive (which holds
whenever the pipeline invokes the planner, since it chunks only when the
total exceeds the nonnegative budget), the planner succeeds and the
concatenation of its chunks is exactly the input list — each document in
exactly one chunk, in order, none lost, duplicated, or split. -/
theorem claim1_coverage (tok : String → Nat) (materials : List Material) (mcs : Nat)
    (hne : materials ≠ []) (hpos : 0 < totalTokens tok materials) :
    ∃ chunks, _create_context_aware_chunks tok materials mcs = Except.ok chunks ∧
      chunks.flatten = materials :=
  chunks_total_of_pos tok materials mcs hne hpos

/-- C1 (witness): the coverage theorem applied to a concrete two-document
list with unit costs and budget 8 = int(10 × 0.8). -/
theorem claim1_witness :
    ([(⟨"a", "u1"⟩ : Material), ⟨"b", "u2"⟩] ≠ ([] : List Material)) ∧
    0 < totalTokens (fun _ => 1) [⟨"a", "u1"⟩, ⟨"b", "u2"⟩] ∧
    ∃ chunks, _create_context_aware_chunks (fun _ => 1) [⟨"a", "u1"⟩, ⟨"b", "u2"⟩] 10
        = Except.ok chunks ∧ chunks.flatten = [(⟨"a", "u1"⟩ : Material), ⟨"b", "u2"⟩] :=
  ⟨by simp, by simp [totalTokens],
    claim1_coverage (fun _ => 1) [⟨"a", "u1"⟩, ⟨"b", "u2"⟩] 10 (by simp) (by simp [totalTokens])⟩

/-- C2 (counterexample): three documents of costs 1, 1, 5 against
`max_context_size = 5` (budget 4) have total cost 7 exceeding the budget,
yet the planner closes every chunk at the count cap
`chunk_size = max(1, int(4 / (7/3))) = 1`, producing three singleton chunks,
while the spec's pure greedy-by-budget scan produces `[[d1, d2], [d3]]`. -/
theorem claim2_cex :
    4 * 5 < 5 * totalTokens (fun s => s.length)
      [⟨"x", "u1"⟩, ⟨"y", "u2"⟩, ⟨"abcde", "u3"⟩] ∧
    _create_context_aware_chunks (fun s => s.length)
        [⟨"x", "u1"⟩, ⟨"y", "u2"⟩, ⟨"abcde", "u3"⟩] 5
      = Except.ok [[⟨"x", "u1"⟩], [⟨"y", "u2"⟩], [⟨"abcde", "u3"⟩]] ∧
    budgetGreedyChunks (fun s => s.length) 5
        [⟨"x", "u1"⟩, ⟨"y", "u2"⟩, ⟨"abcde", "u3"⟩]
      = [[⟨"x", "u1"⟩, ⟨"y", "u2"⟩], [⟨"abcde", "u3"⟩]] ∧
    ([[⟨"x", "u1"⟩], [⟨"y", "u2"⟩], [⟨"abcde", "u3"⟩]] : List (List Material))
      ≠ [[⟨"x", "u1"⟩, ⟨"y", "u2"⟩], [⟨"abcde", "u3"⟩]] :=
  ⟨by decide, rfl, rfl, by decide⟩

/-- C2 (amended): on every input the planner succeeds on (in particular every
non-empty list whose total cost exceeds the budget), its partition is the
greedy-by-budget scan additionally closing the current chunk as soon as it
holds `chunk_size = calculate_chunk_size(...)` documents: scan in retrieval
order; start a new chunk with a document when adding it would exceed
`availableBudget`; close the current chunk when it reaches the count cap; an
over-budget document still forms a singleton chunk, never dropped, never
split. -/
theorem claim2_greedy (tok : String → Nat) (materials : List Material)
    (mcs chunk_size : Nat)
    (_hexceed : 4 * mcs < 5 * totalTokens tok materials)
    (hcalc : calculate_chunk_size tok materials mcs = Except.ok chunk_size) :
    _create_context_aware_chunks tok materials mcs
      = Except.ok (greedyCapped tok mcs chunk_size materials [] 0) := by
  simp only [_create_context_aware_chunks, hcalc, Except.map]
  rw [chunkLoop_eq_greedyCapped]
  simp

/-- C2 (witness): the amended theorem at the counterexample's input, whose
count cap is 1. -/
theorem claim2_witness :
    _create_context_aware_chunks (fun s => s.length)
        [⟨"x", "u1"⟩, ⟨"y", "u2"⟩, ⟨"abcde", "u3"⟩] 5
      = Except.ok (greedyCapped (fun s => s.length) 5 1
          [⟨"x", "u1"⟩, ⟨"y", "u2"⟩, ⟨"abcde", "u3"⟩] [] 0) :=
  claim2_greedy (fun s => s.length) [⟨"x", "u1"⟩, ⟨"y", "u2"⟩, ⟨"abcde", "u3"⟩] 5 1
    (by decide) rfl

/-- C3 (confirmed): every chunk a successful planner run returns either has
total estimated cost within `availableBudget = maxContextSize × 0.8`
(`5 × Σ ≤ 4 × maxContextSize`) or is a singleton whose lone document's cost
alone exceeds that budget. -/
theorem claim3_budget (tok : String → Nat) (materials : List Material) (mcs : Nat)
    (chunks : List (List Material))
    (h : _create_context_aware_chunks tok materials mcs = Except.ok chunks) :
    ∀ c ∈ chunks, 5 * totalTokens tok c ≤ 4 * mcs ∨
      ∃ m, c = [m] ∧ 4 * mcs < 5 * tok m.text := by
  obtain ⟨-, -, rfl⟩ := create_chunks_ok_inv tok materials mcs chunks h
  have := chunkLoop_good tok mcs
    (max 1 ((4 * mcs) / 5 * materials.length / totalTokens tok materials))
    materials [] [] 0 rfl (by simp) (Or.inl rfl)
  simpa [goodChunk] using this

/-- C3 (witness): the budget-respect theorem at the C2 counterexample input;
its first chunk `[d1]` fits the budget. -/
theorem claim3_witness :
    5 * totalTokens (fun s => s.length) [(⟨"x", "u1"⟩ : Material)] ≤ 4 * 5 ∨
      ∃ m, [(⟨"x", "u1"⟩ : Material)] = [m] ∧ 4 * 5 < 5 * (fun s => s.length) m.text :=
  claim3_budget (fun s => s.length) [⟨"x", "u1"⟩, ⟨"y", "u2"⟩, ⟨"abcde", "u3"⟩] 5
    [[⟨"x", "u1"⟩], [⟨"y", "u2"⟩], [⟨"abcde", "u3"⟩]] rfl
    [⟨"x", "u1"⟩] (by simp)

/-- C9 (counterexample): on the empty document list the planner does not
return zero chunks — `calculate_chunk_size` evaluates
`total_tokens / len(materials)` with `len(materials) == 0` and raises
`ZeroDivisionError('division by zero')`, which propagates out of
`_create_context_aware_chunks`. -/
theorem claim9_cex :
    _create_context_aware_chunks (fun _ => 0) ([] : List Material) 10
      = Except.error "division by zero" ∧
    _create_context_aware_chunks (fun _ => 0) ([] : List Material) 10
      ≠ Except.ok [] := by
  have h0 : _create_context_aware_chunks (fun _ => 0) ([] : List Material) 10
      = Except.error "division by zero" := rfl
  refine ⟨h0, fun h => ?_⟩
  rw [h0] at h
  exact Except.noConfusion h

/-- C9 (amended): on an empty document list `_create_context_aware_chunks`
raises `ZeroDivisionError` rather than returning zero chunks; the zero-chunk
outcome for empty retrieval is instead guaranteed by the pipeline, which
short-circuits with the no-materials error before chunking, and the planner
is total (returns a partition) on every list whose total cost exceeds the
budget — the only lists the pipeline hands it. -/
theorem claim9_empty (tok : String → Nat) (mcs : Nat) :
    _create_context_aware_chunks tok ([] : List Material) mcs
      = Except.error "division by zero" ∧
    ∀ materials : List Material, 4 * mcs < 5 * totalTokens tok materials →
      ∃ chunks, _create_context_aware_chunks tok materials mcs = Except.ok chunks := by
  constructor
  · simp [_create_context_aware_chunks, calculate_chunk_size, Except.map]
  · intro materials hexceed
    have hpos : 0 < totalTokens tok materials := by omega
    have hne : materials ≠ [] := by
      rintro rfl
      simp [totalTokens] at hpos
    obtain ⟨chunks, hok, -⟩ := chunks_total_of_pos tok materials mcs hne hpos
    exact ⟨chunks, hok⟩

/-- C9 (witness): the amended theorem at `max_context_size = 10` and a
two-document over-budget list. -/
theorem claim9_witness :
    _create_context_aware_chunks (fun _ => 5) ([] : List Material) 10
      = Except.error "division by zero" ∧
    ∃ chunks, _create_context_aware_chunks (fun _ => 5)
        [(⟨"a", "u1"⟩ : Material), ⟨"b", "u2"⟩] 10 = Except.ok chunks :=
  ⟨(claim9_empty (fun _ => 5) 10).1,
    (claim9_empty (fun _ => 5) 10).2 [⟨"a", "u1"⟩, ⟨"b", "u2"⟩] (by simp [totalTokens])⟩

/-- C10 (confirmed): every chunk of a successful planner run holds at most
`max(1, ⌊(maxContextSize × 0.8) / averageDocumentCost⌋)` documents, where
the average is `totalTokens / length` over the whole input; with exact
rational arithmetic that bound is `max 1 ((4·mcs·len) / (5·total))`.  (The
code's cap `max(1, int(int(mcs×0.8) / avg))` truncates the budget before
dividing, so it is at most this claimed cap.) -/
theorem claim10_cap (tok : String → Nat) (materials : List Material) (mcs : Nat)
    (chunks : List (List Material))
    (h : _create_context_aware_chunks tok materials mcs = Except.ok chunks) :
    ∀ c ∈ chunks,
      c.length ≤ max 1 (4 * mcs * materials.length / (5 * totalTokens tok materials)) := by
  obtain ⟨hlen, htot, rfl⟩ := create_chunks_ok_inv tok materials mcs chunks h
  intro c hc
  have hcap : c.length ≤ max 1 ((4 * mcs) / 5 * materials.length / totalTokens tok materials) :=
    chunkLoop_length tok mcs _ (le_max_left _ _) materials [] [] 0
      (by simp) (by simp) c hc
  refine hcap.trans (max_le_max (le_refl 1) ?_)
  calc (4 * mcs) / 5 * materials.length / totalTokens tok materials
      ≤ 4 * mcs * materials.length / 5 / totalTokens tok materials := by
        refine Nat.div_le_div_right ?_
        rw [Nat.le_div_iff_mul_le (by omega : 0 < 5)]
        calc (4 * mcs) / 5 * materials.length * 5
            = (4 * mcs) / 5 * 5 * materials.length := by ring
          _ ≤ 4 * mcs * materials.length :=
              Nat.mul_le_mul_right _ (Nat.div_mul_le_self _ _)
    _ = 4 * mcs * materials.length / (5 * totalTokens tok materials) :=
        Nat.div_div_eq_div_mul _ _ _

/-- C10 (witness): the cap theorem at the C2 counterexample input, whose
claimed cap is `max 1 (60/35) = 1`, met by the singleton chunk `[d1]`. -/
theorem claim10_witness :
    ([(⟨"x", "u1"⟩ : Material)]).length ≤
      max 1 (4 * 5 * ([(⟨"x", "u1"⟩ : Material), ⟨"y", "u2"⟩, ⟨"abcde", "u3"⟩]).length /
        (5 * totalTokens (fun s => s.length) [⟨"x", "u1"⟩, ⟨"y", "u2"⟩, ⟨"abcde", "u3"⟩])) :=
  claim10_cap (fun s => s.length) [⟨"x", "u1"⟩, ⟨"y", "u2"⟩, ⟨"abcde", "u3"⟩] 5
    [[⟨"x", "u1"⟩], [⟨"y", "u2"⟩], [⟨"abcde", "u3"⟩]] rfl
    [⟨"x", "u1"⟩] (by simp)

/-! ## Claims about the pipeline -/

/-- Every run of `analyze_trend` returns exactly one of the two literal
dicts the source constructs. -/
theorem analyze_trend_shape {Emb : Type} (env : Env Emb) (category userQuery : String) :
    (∃ r, (analyze_trend env category userQuery).fst = [("status", "ok"), ("report", r)]) ∨
    (∃ m, (analyze_trend env category userQuery).fst
        = [("status", "error"), ("message", m)]) := by
  cases hr : analyzeTrendR env category userQuery with
  | mk r trace =>
      cases r with
      | ok rep => exact Or.inl ⟨rep, by simp [analyze_trend, hr, resultToDict]⟩
      | err m => exact Or.inr ⟨m, by simp [analyze_trend, hr, resultToDict]⟩

/-- C4 (counterexample): a fully successful run returns
`{'status': 'ok', 'report': ...}` — the status literal is `'ok'`, not
`success`, and the dict carries neither the extracted theme nor a
materials count. -/
theorem claim4_cex :
    (analyze_trend envOk "c" "q").fst = [("status", "ok"), ("report", "R")] ∧
    (analyze_trend envOk "c" "q").fst.lookup "status" ≠ some "success" ∧
    (analyze_trend envOk "c" "q").fst.lookup "theme" = none ∧
    (analyze_trend envOk "c" "q").fst.lookup "materials_count" = none := by
  have h0 : (analyze_trend envOk "c" "q").fst = [("status", "ok"), ("report", "R")] := rfl
  refine ⟨h0, ?_, by rw [h0]; rfl, by rw [h0]; rfl⟩
  rw [h0]
  intro h
  simp [List.lookup] at h

/-- C4 (amended): every run of `analyze_trend` returns either the success
dict `{'status': 'ok', 'report': narrative}` — whose only keys are `status`
(literal `'ok'`) and `report`, with no theme and no materials count — or the
error dict `{'status': 'error', 'message': ...}`. -/
theorem claim4_success_dict {Emb : Type} (env : Env Emb) (category userQuery : String) :
    (∃ r, (analyze_trend env category userQuery).fst = [("status", "ok"), ("report", r)] ∧
      (analyze_trend env category userQuery).fst.lookup "theme" = none ∧
      (analyze_trend env category userQuery).fst.lookup "materials_count" = none) ∨
    (∃ m, (analyze_trend env category userQuery).fst
        = [("status", "error"), ("message", m)]) := by
  rcases analyze_trend_shape env category userQuery with ⟨r, hr⟩ | ⟨m, hm⟩
  · exact Or.inl ⟨r, hr, by rw [hr]; rfl, by rw [hr]; rfl⟩
  · exact Or.inr ⟨m, hm⟩

/-- C5 (confirmed): `analyze_trend` always returns a dict with an explicit
status (`'ok'` or `'error'`), and a failure raised during theme extraction,
embedding creation, or retrieval aborts the pipeline and surfaces as the
error dict carrying exactly the underlying failure message. -/
theorem claim5_no_escape {Emb : Type} (env : Env Emb) (category userQuery : String) :
    ((analyze_trend env category userQuery).fst.lookup "status" = some "ok" ∨
      (analyze_trend env category userQuery).fst.lookup "status" = some "error") ∧
    (∀ m, env.analyzeText (Call.themeExtract category userQuery) = Except.error m →
      (analyze_trend env category userQuery).fst = [("status", "error"), ("message", m)]) ∧
    (∀ raw m, env.analyzeText (Call.themeExtract category userQuery) = Except.ok raw →
      env.createEmbedding raw.trim = Except.error m →
      (analyze_trend env category userQuery).fst = [("status", "error"), ("message", m)]) ∧
    (∀ raw emb m, env.analyzeText (Call.themeExtract category userQuery) = Except.ok raw →
      env.createEmbedding raw.trim = Except.ok emb →
      env.searchVectors emb category = Except.error m →
      (analyze_trend env category userQuery).fst = [("status", "error"), ("message", m)]) := by
  refine ⟨?_, ?_, ?_, ?_⟩
  · rcases analyze_trend_shape env category userQuery with ⟨r, hr⟩ | ⟨m, hm⟩
    · exact Or.inl (by rw [hr]; rfl)
    · exact Or.inr (by rw [hm]; rfl)
  · intro m h1
    simp [analyze_trend, analyzeTrendR, h1, resultToDict]
  · intro raw m h1 h2
    simp [analyze_trend, analyzeTrendR, h1, h2, resultToDict]
  · intro raw emb m h1 h2 h3
    simp [analyze_trend, analyzeTrendR, h1, h2, h3, resultToDict]

/-- C5 (witness): the surfacing theorem applied to the environment whose
theme-extraction call raises `"boom"`. -/
theorem claim5_witness :
    (analyze_trend envErrTheme "c" "q").fst = [("status", "error"), ("message", "boom")] :=
  (claim5_no_escape envErrTheme "c" "q").2.1 "boom" rfl

/-- C6 (confirmed): when retrieval succeeds with zero documents (after a
successful theme extraction and embedding), `analyze_trend` returns the
no-materials error dict and its completion-call trace is exactly the theme
call — no filter, chunk-analysis, or synthesis completion call is made. -/
theorem claim6_empty_retrieval {Emb : Type} (env : Env Emb)
    (category userQuery raw : String) (emb : Emb)
    (h1 : env.analyzeText (Call.themeExtract category userQuery) = Except.ok raw)
    (h2 : env.createEmbedding raw.trim = Except.ok emb)
    (h3 : env.searchVectors emb category = Except.ok []) :
    analyze_trend env category userQuery
      = ([("status", "error"), ("message", noMaterialsMsg)],
          [Call.themeExtract category userQuery]) := by
  simp [analyze_trend, analyzeTrendR, h1, h2, h3, resultToDict]

/-- C6 (witness): the empty-retrieval theorem at the concrete environment
whose search returns no documents. -/
theorem claim6_witness :
    analyze_trend envEmptySearch "c" "q"
      = ([("status", "error"), ("message", noMaterialsMsg)],
          [Call.themeExtract "c" "q"]) :=
  claim6_empty_retrieval envEmptySearch "c" "q" "R" 0 rfl rfl rfl

/-- C7 (confirmed): a filter response that fails strict JSON parsing or
parses to a non-list value yields an empty FilteredChunk (no parse exception
propagates), and a chunk whose FilteredChunk is empty is skipped: processing
it adds only its filter call to the trace — no chunk-analysis completion
call — and leaves the accumulated intermediate analyses (the only input to
synthesis) unchanged. -/
theorem claim7_filter_drop {Emb : Type} (env : Env Emb)
    (category theme userQuery s : String) (nparts i : Nat)
    (chunk : List Material) (rest : List (List Material))
    (acc : List String) (trace : List Call) :
    ((env.jsonLoads s = none ∨ env.jsonLoads s = some JValue.nonlist) →
      parseFilteredList env.jsonLoads s = []) ∧
    (env.analyzeText (Call.chunkFilter category theme userQuery (i + 1) nparts)
        = Except.ok s →
      parseFilteredList env.jsonLoads s = [] →
      processChunks env category theme userQuery nparts (chunk :: rest) i acc trace
        = processChunks env category theme userQuery nparts rest (i + 1) acc
            (trace ++ [Call.chunkFilter category theme userQuery (i + 1) nparts])) := by
  constructor
  · rintro (h | h) <;> simp [parseFilteredList, h]
  · intro h1 h2
    simp [processChunks, h1, h2]

/-- C7 (witness): the filter-drop theorem at the environment whose JSON
parse always fails, on a one-chunk worklist. -/
theorem claim7_witness :
    parseFilteredList envAllEmpty.jsonLoads "x" = [] ∧
    processChunks envAllEmpty "c" "t" "q" 2 [[⟨"a", "u1"⟩]] 0 [] []
      = processChunks envAllEmpty "c" "t" "q" 2 [] 1 [] [Call.chunkFilter "c" "t" "q" 1 2] :=
  ⟨(claim7_filter_drop envAllEmpty "c" "t" "q" "x" 2 0 [⟨"a", "u1"⟩] [] [] []).1 (Or.inl rfl),
    (claim7_filter_drop envAllEmpty "c" "t" "q" "x" 2 0 [⟨"a", "u1"⟩] [] [] []).2 rfl rfl⟩

/-- When every pending chunk's filter response parses to the empty list, the
chunk loop returns the accumulator unchanged and appends exactly one filter
call per chunk to the trace. -/
theorem processChunks_all_empty {Emb : Type} (env : Env Emb)
    (category theme userQuery : String) (nparts : Nat) :
    ∀ (rest : List (List Material)) (i : Nat) (acc : List String) (trace : List Call),
      (∀ j, j < rest.length → ∃ s,
        env.analyzeText (Call.chunkFilter category theme userQuery (i + 1 + j) nparts)
          = Except.ok s ∧ parseFilteredList env.jsonLoads s = []) →
      processChunks env category theme userQuery nparts rest i acc trace
        = (Except.ok acc, trace ++ (List.range rest.length).map
            (fun j => Call.chunkFilter category theme userQuery (i + 1 + j) nparts))
  | [], i, acc, trace => by
      intro _
      simp [processChunks]
  | chunk :: rest, i, acc, trace => by
      intro hall
      obtain ⟨s, hs, hp⟩ := hall 0 (by simp)
      rw [Nat.add_zero] at hs
      simp only [processChunks, hs, hp, List.isEmpty_nil, if_true]
      rw [processChunks_all_empty env category theme userQuery nparts rest (i + 1) acc
        (trace ++ [Call.chunkFilter category theme userQuery (i + 1) nparts]) ?_]
      · have hfun : (fun j => Call.chunkFilter category theme userQuery (i + 1 + 1 + j) nparts)
            = (fun j => Call.chunkFilter category theme userQuery (i + 1 + (j + 1)) nparts) := by
          funext j
          congr 1
          omega
        rw [hfun]
        simp [List.range_succ_eq_map, List.map_map, Function.comp_def, List.append_assoc]
      · intro j hj
        have := hall (j + 1) (by simpa using Nat.succ_lt_succ hj)
        simpa [show i + 1 + (j + 1) = i + 1 + 1 + j by omega] using this

/-- C8 (confirmed): with documents retrieved, if every Relevance Filter
response parses to the empty list then no synthesis completion call is ever
attempted and `analyze_trend` returns an error dict whose message differs
from the zero-retrieval (`NoMaterialsFound`) message — on the fast path the
`'Нет релевантных материалов после фильтрации'` dict with exactly the theme
and filter calls, on the chunked path the
`'Не удалось получить анализ из материалов'` dict with exactly the theme
call plus one filter call per chunk. -/
theorem claim8_filtered_to_empty {Emb : Type} (env : Env Emb)
    (category userQuery raw : String) (emb : Emb)
    (materials : List Material) (mcs : Nat)
    (h1 : env.analyzeText (Call.themeExtract category userQuery) = Except.ok raw)
    (h2 : env.createEmbedding raw.trim = Except.ok emb)
    (h3 : env.searchVectors emb category = Except.ok materials)
    (h4 : materials ≠ [])
    (h5 : env.getMaxContextSize = Except.ok mcs) :
    (noAfterFilterMsg ≠ noMaterialsMsg ∧ noChunkAnalysesMsg ≠ noMaterialsMsg) ∧
    (∀ s, 5 * totalTokens env.tok materials ≤ 4 * mcs →
      env.analyzeText (Call.filterAll category raw.trim userQuery) = Except.ok s →
      parseFilteredList env.jsonLoads s = [] →
      analyze_trend env category userQuery
          = ([("status", "error"), ("message", noAfterFilterMsg)],
              [Call.themeExtract category userQuery,
                Call.filterAll category raw.trim userQuery]) ∧
        ∀ call ∈ (analyze_trend env category userQuery).snd, call.isSynthesis = false) ∧
    (∀ chunks, 4 * mcs < 5 * totalTokens env.tok materials →
      _create_context_aware_chunks env.tok materials mcs = Except.ok chunks →
      (∀ j, j < chunks.length → ∃ s,
        env.analyzeText (Call.chunkFilter category raw.trim userQuery (j + 1) chunks.length)
          = Except.ok s ∧ parseFilteredList env.jsonLoads s = []) →
      analyze_trend env category userQuery
          = ([("status", "error"), ("message", noChunkAnalysesMsg)],
              Call.themeExtract category userQuery ::
                (List.range chunks.length).map
                  (fun j => Call.chunkFilter category raw.trim userQuery (j + 1) chunks.length)) ∧
        ∀ call ∈ (analyze_trend env category userQuery).snd, call.isSynthesis = false) := by
  have h4' : materials.isEmpty = false :=
    Bool.eq_false_iff.mpr fun hh => h4 (List.isEmpty_iff.mp hh)
  refine ⟨⟨by decide, by decide⟩, ?_, ?_⟩
  · intro s hle hfilter hparse
    have heq : analyze_trend env category userQuery
        = ([("status", "error"), ("message", noAfterFilterMsg)],
            [Call.themeExtract category userQuery,
              Call.filterAll category raw.trim userQuery]) := by
      simp [analyze_trend, analyzeTrendR, h1, h2, h3, h4', h5, hle, hfilter, hparse,
        resultToDict]
    refine ⟨heq, ?_⟩
    rw [heq]
    intro call hc
    simp only [List.mem_cons, List.not_mem_nil, or_false] at hc
    rcases hc with rfl | rfl
    · rfl
    · rfl
  · intro chunks hgt h7 h8
    have hcond : ¬ (5 * totalTokens env.tok materials ≤ 4 * mcs) := by omega
    have hall : ∀ j, j < chunks.length → ∃ s,
        env.analyzeText (Call.chunkFilter category raw.trim userQuery (0 + 1 + j) chunks.length)
          = Except.ok s ∧ parseFilteredList env.jsonLoads s = [] := by
      intro j hj
      simpa [show 0 + 1 + j = j + 1 by omega] using h8 j hj
    have hproc := processChunks_all_empty env category raw.trim userQuery chunks.length
      chunks 0 [] [Call.themeExtract category userQuery] hall
    have hfun : (fun j => Call.chunkFilter category raw.trim userQuery (0 + 1 + j) chunks.length)
        = (fun j => Call.chunkFilter category raw.trim userQuery (j + 1) chunks.length) := by
      funext j
      congr 1
      omega
    rw [hfun] at hproc
    have heq : analyze_trend env category userQuery
        = ([("status", "error"), ("message", noChunkAnalysesMsg)],
            Call.themeExtract category userQuery ::
              (List.range chunks.length).map
                (fun j => Call.chunkFilter category raw.trim userQuery (j + 1) chunks.length)) := by
      simp [analyze_trend, analyzeTrendR, h1, h2, h3, h4', h5, hcond, h7, hproc, resultToDict]
    refine ⟨heq, ?_⟩
    rw [heq]
    intro call hc
    rcases List.mem_cons.mp hc with rfl | h
    · rfl
    · obtain ⟨j, -, rfl⟩ := List.mem_map.mp h
      rfl

/-- C8 (witness): the all-filters-empty theorem at the concrete environment
forcing two chunks whose filter responses are unparseable. -/
theorem claim8_witness :
    (analyze_trend envAllEmpty "c" "q"
        = ([("status", "error"), ("message", noChunkAnalysesMsg)],
            Call.themeExtract "c" "q" ::
              (List.range 2).map
                (fun j => Call.chunkFilter "c" ("x".trim) "q" (j + 1) 2))) ∧
    ∀ call ∈ (analyze_trend envAllEmpty "c" "q").snd, call.isSynthesis = false :=
  (claim8_filtered_to_empty envAllEmpty "c" "q" "x" 0
      [⟨"a", "u1"⟩, ⟨"b", "u2"⟩] 1 rfl rfl rfl (by simp) rfl).2.2
    [[⟨"a", "u1"⟩], [⟨"b", "u2"⟩]] (by decide) rfl
    (fun _ _ => ⟨"x", rfl, rfl⟩)
